import Mathlib

/-!
Shallow embedding of `src/stu/main.py`, a single-file student management
application backed by sqlite.  The four tables of the store are embedded
as lists of row structures, and each domain operation performed by the
code (the SQL it executes plus the surrounding Python control flow) is
translated into a pure function from the store state to a result and a
new store state.  Timestamp defaults (`datetime('now')` in the DDL) are
passed explicitly as a `now : Nat` argument; binary payloads are
`List Nat` (bytes).

One behavioural point matters throughout: `get_connection` opens the
database with `sqlite3.connect(...)` and never executes
`PRAGMA foreign_keys = ON`.  Python's sqlite3 leaves foreign-key
enforcement OFF by default, so the `FOREIGN KEY ... ON DELETE CASCADE`
clauses declared in `init_db` are inert at runtime: `DELETE FROM
students WHERE username = ?` removes rows from `students` only, and
inserts into `student_notes` / `attendance` succeed even without a
matching parent row.  The embedding reproduces that executed behaviour.
-/

set_option autoImplicit false

namespace StuApp

/-- A row of the `admins` table. -/
structure AdminRow where
  username : String
  password : String
  full_name : String
deriving DecidableEq

/-- A row of the `students` table.  `phone` and `notes` are nullable in
the DDL but every code path stores a string, so they are embedded as
`String`. -/
structure StudentRow where
  username : String
  password : String
  full_name : String
  email : String
  program : String
  phone : String
  notes : String
deriving DecidableEq

/-- A row of the `student_notes` table (document attachments). -/
structure NoteRow where
  id : Nat
  student_username : String
  title : String
  file_name : String
  mime_type : String
  data : List Nat
  uploaded_at : Nat
deriving DecidableEq

/-- A row of the `attendance` table. -/
structure AttRow where
  id : Nat
  student_username : String
  attendance_date : String
  status : String
  marked_at : Nat
deriving DecidableEq

/-- The whole persistent store: the four tables plus the AUTOINCREMENT
counters of the two surrogate-keyed tables. -/
structure DB where
  admins : List AdminRow
  students : List StudentRow
  notes : List NoteRow
  attendance : List AttRow
  nextNoteId : Nat
  nextAttId : Nat
deriving DecidableEq

/-- A fresh database file: empty tables, AUTOINCREMENT counters at 1. -/
def emptyDB : DB := { admins := [], students := [], notes := [], attendance := [], nextNoteId := 1, nextAttId := 1 }

/-- Insertion step of the sort used to embed SQL `ORDER BY`:
`r a b = true` means `a` belongs before `b`. -/
def insertBy {α : Type} (r : α → α → Bool) (a : α) : List α → List α
  | [] => [a]
  | b :: l => if r a b then a :: b :: l else b :: insertBy r a l

/-- Insertion sort by the given comes-before relation, embedding SQL
`ORDER BY`. -/
def sortedBy {α : Type} (r : α → α → Bool) : List α → List α
  | [] => []
  | a :: l => insertBy r a (sortedBy r l)

/-- `fetch_student`: `SELECT ... FROM students WHERE username = ?`
(single row or `None`). -/
def fetch_student (db : DB) (username : String) : Option StudentRow :=
  db.students.find? (fun row => row.username == username)

/-- `add_student`: `INSERT INTO students ...`; a username collision hits
the PRIMARY KEY constraint, the exception is caught and returned as an
error string, and the transaction leaves the store unchanged. -/
def add_student (db : DB) (payload : StudentRow) : Option String × DB :=
  if db.students.any (fun row => row.username == payload.username) then
    (some "UNIQUE constraint failed: students.username", db)
  else
    (none, { db with students := db.students ++ [payload] })

/-- The sparse patch handed to `update_student`: each field either
present-with-value or absent.  Callers in the source only ever supply
these six keys. -/
structure StudentPatch where
  password : Option String := none
  full_name : Option String := none
  email : Option String := none
  program : Option String := none
  phone : Option String := none
  notes : Option String := none
deriving DecidableEq

/-- `not updates` in Python: the patch supplies no field at all. -/
def StudentPatch.isEmpty (p : StudentPatch) : Bool :=
  p.password.isNone && p.full_name.isNone && p.email.isNone &&
  p.program.isNone && p.phone.isNone && p.notes.isNone

/-- Effect of the generated `UPDATE students SET k = :k, ...` assignment
list on one row: each supplied field is overwritten, absent fields keep
their stored value. -/
def applyPatch (p : StudentPatch) (r : StudentRow) : StudentRow :=
  { r with
    password := p.password.getD r.password
    full_name := p.full_name.getD r.full_name
    email := p.email.getD r.email
    program := p.program.getD r.program
    phone := p.phone.getD r.phone
    notes := p.notes.getD r.notes }

/-- `update_student`: returns success immediately on an empty patch
without touching the store; otherwise runs
`UPDATE students SET ... WHERE username = :username`. -/
def update_student (db : DB) (username : String) (p : StudentPatch) : Option String × DB :=
  if p.isEmpty then (none, db)
  else
    (none, { db with students := db.students.map (fun row => if row.username == username then applyPatch p row else row) })

/-- `delete_student`: `DELETE FROM students WHERE username = ?`.  With
foreign-key enforcement off (the `PRAGMA` is never issued) the declared
`ON DELETE CASCADE` clauses do nothing, so only the `students` table
changes. -/
def delete_student (db : DB) (username : String) : Option String × DB :=
  (none, { db with students := db.students.filter (fun row => !(row.username == username)) })

/-- Comes-before relation of `ORDER BY uploaded_at DESC, id DESC`. -/
def noteBefore (a b : NoteRow) : Bool :=
  b.uploaded_at < a.uploaded_at || (b.uploaded_at == a.uploaded_at && b.id < a.id)

/-- `fetch_student_notes`: `SELECT ... FROM student_notes WHERE
student_username = ? ORDER BY uploaded_at DESC, id DESC`. -/
def fetch_student_notes (db : DB) (username : String) : List NoteRow :=
  sortedBy noteBefore (db.notes.filter (fun n => n.student_username == username))

/-- The value object Streamlit's file uploader hands to
`add_student_note`: name, MIME type (possibly empty) and raw bytes. -/
structure UploadedFile where
  name : String
  mime : String
  data : List Nat
deriving DecidableEq

/-- `add_student_note`: rejects an empty payload before any store
access; otherwise inserts, with `uploaded_file.type or
"application/octet-stream"` supplying the MIME default and the table
defaults supplying id and upload time. -/
def add_student_note (db : DB) (username title : String) (f : UploadedFile) (now : Nat) : Option String × DB :=
  if f.data.isEmpty then (some "Uploaded file is empty.", db)
  else
    let row : NoteRow :=
      { id := db.nextNoteId, student_username := username, title := title,
        file_name := f.name,
        mime_type := if f.mime == "" then "application/octet-stream" else f.mime,
        data := f.data, uploaded_at := now }
    (none, { db with notes := db.notes ++ [row], nextNoteId := db.nextNoteId + 1 })

/-- `delete_student_note`: `DELETE FROM student_notes WHERE id = ?`. -/
def delete_student_note (db : DB) (note_id : Nat) : Option String × DB :=
  (none, { db with notes := db.notes.filter (fun n => !(n.id == note_id)) })

/-- The `(student_username, attendance_date)` key match used by the
UNIQUE constraint on `attendance`. -/
def attKey (username attendance_date : String) (a : AttRow) : Bool :=
  a.student_username == username && a.attendance_date == attendance_date

/-- `mark_attendance`: `INSERT OR REPLACE INTO attendance
(student_username, attendance_date, status) VALUES (?, ?, ?)`.  The
UNIQUE constraint on the key makes this delete any conflicting row and
insert a fresh one, with a fresh AUTOINCREMENT id and `marked_at`
filled by the column default. -/
def mark_attendance (db : DB) (username attendance_date status : String) (now : Nat) : Option String × DB :=
  let row : AttRow :=
    { id := db.nextAttId, student_username := username, attendance_date := attendance_date,
      status := status, marked_at := now }
  (none, { db with
    attendance := db.attendance.filter (fun a => !(attKey username attendance_date a)) ++ [row],
    nextAttId := db.nextAttId + 1 })

/-- Lexicographic order on character lists by code point, the order
sqlite's default text collation (byte order, which agrees with code
point order on the ASCII dates in use) gives to TEXT values. -/
def charListLt : List Char → List Char → Bool
  | [], [] => false
  | [], _ :: _ => true
  | _ :: _, [] => false
  | a :: as, b :: bs =>
    if a.toNat = b.toNat then charListLt as bs else decide (a.toNat < b.toNat)

/-- Text comparison of two strings under the default collation. -/
def strLt (a b : String) : Bool :=
  charListLt a.data b.data

/-- Comes-before relation of `ORDER BY attendance_date DESC`. -/
def attBefore (a b : AttRow) : Bool :=
  strLt b.attendance_date a.attendance_date

/-- `fetch_attendance`: `SELECT ... FROM attendance WHERE
student_username = ? ORDER BY attendance_date DESC`. -/
def fetch_attendance (db : DB) (username : String) : List AttRow :=
  sortedBy attBefore (db.attendance.filter (fun a => a.student_username == username))

/-- `get_attendance_status`: point lookup of the status stored for one
`(username, date)` key. -/
def get_attendance_status (db : DB) (username attendance_date : String) : Option String :=
  (db.attendance.find? (fun a => a.student_username == username && a.attendance_date == attendance_date)).map (fun a => a.status)

/-- `authenticate_admin`: `SELECT full_name FROM admins WHERE username
= ? AND password = ?`. -/
def authenticate_admin (db : DB) (username password : String) : Option String :=
  (db.admins.find? (fun a => a.username == username && a.password == password)).map (fun a => a.full_name)

/-- `authenticate_student`: fetch by username, compare the password
field for exact equality. -/
def authenticate_student (db : DB) (username password : String) : Option StudentRow :=
  match fetch_student db username with
  | some record => if record.password == password then some record else none
  | none => none

/-- Outcome of a login-form submission in `render_login`. -/
inductive LoginOutcome where
  | admin (full_name : String)
  | student (username full_name : String)
  | invalid
deriving DecidableEq

/-- The credential-resolution logic of `render_login`: admin first,
student only when the admin check fails, a single opaque error
otherwise. -/
def render_login (db : DB) (username password : String) : LoginOutcome :=
  match authenticate_admin db username password with
  | some admin_name => .admin admin_name
  | none =>
    match authenticate_student db username password with
    | some record => .student username record.full_name
    | none => .invalid

/-- Outcome of the add-student form in `render_admin_dashboard`. -/
inductive CreateResult where
  | ok
  | validationError
  | duplicateKey
  | storeError (msg : String)
deriving DecidableEq

/-- The raw text-input values of the add-student form (every widget
yields a string; an untouched field yields `""`). -/
structure NewStudentForm where
  username : String
  password : String
  full_name : String
  email : String
  program : String
  phone : String
deriving DecidableEq

/-- The add-student flow of `render_admin_dashboard`: required-field
check first (before any store access), then the duplicate check via
`fetch_student`, then `add_student` with the Python `or`-defaults for
the optional fields and `notes` fixed to `""`. -/
def create (db : DB) (f : NewStudentForm) : CreateResult × DB :=
  if f.username == "" || f.password == "" then (.validationError, db)
  else if (fetch_student db f.username).isSome then (.duplicateKey, db)
  else
    match add_student db
      { username := f.username, password := f.password,
        full_name := if f.full_name == "" then "Unnamed Student" else f.full_name,
        email := if f.email == "" then "Not provided" else f.email,
        program := if f.program == "" then "Undeclared" else f.program,
        phone := f.phone, notes := "" } with
    | (none, db1) => (.ok, db1)
    | (some msg, db1) => (.storeError msg, db1)

/-- Python's `str.strip()`: drop leading and trailing whitespace. -/
def pyStrip (s : String) : String :=
  ⟨((s.data.dropWhile (fun c => c.isWhitespace)).reverse.dropWhile (fun c => c.isWhitespace)).reverse⟩

/-- The note-upload flow of `render_admin_dashboard`:
`title_to_use = note_title.strip() or uploaded_note.name`, then
`add_student_note`. -/
def upload_note (db : DB) (username note_title : String) (f : UploadedFile) (now : Nat) : Option String × DB :=
  add_student_note db username (if pyStrip note_title == "" then f.name else pyStrip note_title) f now

/-- The attendance statistics block of `render_student_dashboard`.
`present_percentage` is embedded in `ℚ` (the Python expression is exact
rational arithmetic up to float rounding, which the claims do not
exercise beyond float-exact values). -/
structure AttendanceSummary where
  total : Nat
  present_count : Nat
  absent_count : Nat
  present_percentage : ℚ
deriving DecidableEq

/-- `summary`: counts over `fetch_attendance` plus the guarded
percentage `(present_count / total_count * 100) if total_count > 0
else 0`. -/
def summary (db : DB) (username : String) : AttendanceSummary :=
  let records := fetch_attendance db username
  let present_count := records.countP (fun r => r.status == "present")
  let absent_count := records.countP (fun r => r.status == "absent")
  let total_count := records.length
  { total := total_count, present_count := present_count, absent_count := absent_count,
    present_percentage := if total_count > 0 then (present_count : ℚ) / (total_count : ℚ) * 100 else 0 }

/-- Gregorian leap-year test, as `calendar.isleap`. -/
def isLeap (y : Nat) : Bool :=
  (y % 4 == 0 && y % 100 != 0) || y % 400 == 0

/-- Number of days of a Gregorian month, as `calendar.monthrange`. -/
def daysInMonth (y m : Nat) : Nat :=
  if m == 2 then (if isLeap y then 29 else 28)
  else if m == 4 || m == 6 || m == 9 || m == 11 then 30
  else 31

/-- The Zeller constant of a `(year, month)` pair: the weekday of
day `q` of the month is `(q + zellerC y m) % 7` with 0 = Saturday. -/
def zellerC (y m : Nat) : Nat :=
  let yy := if m ≤ 2 then y - 1 else y
  let mm := if m ≤ 2 then m + 12 else m
  let k := yy % 100
  let j := yy / 100
  13 * (mm + 1) / 5 + k + k / 4 + j / 4 + 5 * j

/-- Weekday of a Gregorian date with Monday = 0, matching
`calendar.weekday`. -/
def weekdayOf (y m d : Nat) : Nat :=
  (d + zellerC y m + 5) % 7

/-- Weekday (Monday = 0) of the first day of the month. -/
def firstWeekday (y m : Nat) : Nat :=
  weekdayOf y m 1

/-- The flat Monday-first day sequence underlying
`calendar.Calendar().monthdayscalendar`: leading zero padding up to the
first weekday, the day numbers 1..n, trailing zero padding to a full
week. -/
def paddedDays (y m : Nat) : List Nat :=
  List.replicate (firstWeekday y m) 0 ++
  ((List.range (daysInMonth y m)).map (fun i => i + 1) ++
    List.replicate ((7 - (firstWeekday y m + daysInMonth y m) % 7) % 7) 0)

/-- Split a list into consecutive weeks of seven entries. -/
def chunk7 {α : Type} : List α → List (List α)
  | [] => []
  | a :: l => ((a :: l).take 7) :: chunk7 ((a :: l).drop 7)
  termination_by l => l.length
  decreasing_by
    simp [List.length_drop]
    omega

/-- `calendar.Calendar().monthdayscalendar(year, month)` with the
default Monday-first week: weeks of seven day numbers, 0 for days
outside the month. -/
def monthdayscalendar (y m : Nat) : List (List Nat) :=
  chunk7 (paddedDays y m)

/-- Two-digit zero padding, as Python's `%02d` for the values in use. -/
def pad2 (n : Nat) : String :=
  if n < 10 then "0" ++ toString n else toString n

/-- The f-string `f"{year}-{month:02d}-{day:02d}"` used as dictionary
key in `render_attendance_calendar`. -/
def dateStr (y m d : Nat) : String :=
  toString y ++ "-" ++ pad2 m ++ "-" ++ pad2 d

/-- Classification of one calendar-day cell. -/
inductive DayCell where
  | present
  | absent
  | unmarked
deriving DecidableEq

/-- The colour/label branch of `render_attendance_calendar`: a stored
status string maps to present/absent, anything else (including no
entry) renders as the gray unmarked cell. -/
def cellOf : Option String → DayCell
  | some s => if s == "present" then .present else if s == "absent" then .absent else .unmarked
  | none => .unmarked

/-- The dictionary comprehension `{record["attendance_date"]:
record["status"] for record in attendance_records}` followed by
`.get(date_str)`: on duplicate keys the later record wins, hence the
lookup over the reversed list. -/
def attendanceDict (records : List AttRow) (ds : String) : Option String :=
  (records.reverse.find? (fun r => r.attendance_date == ds)).map (fun r => r.status)

/-- The day-cell content of `render_attendance_calendar`: every nonzero
day of the Monday-first month grid paired with its classified status;
zero padding cells carry no day mapping. -/
def render_attendance_calendar (db : DB) (username : String) (y m : Nat) : List (Nat × DayCell) :=
  (monthdayscalendar y m).flatten.filterMap (fun d =>
    if d == 0 then none
    else some (d, cellOf (attendanceDict (fetch_attendance db username) (dateStr y m d))))

/-- Modelled from the spec: the broadcast operation of §4.5 has no
counterpart anywhere in the source.  One step of it: the single-student
document `add` applied to one listed student, failing individually when
that student's record is missing (missing FK) or the payload is
empty. -/
def broadcast_step (db : DB) (u title file_name mime : String) (data : List Nat) (now : Nat) : Option String × DB :=
  if (fetch_student db u).isNone then (some "missing student record", db)
  else add_student_note db u (if pyStrip title == "" then file_name else pyStrip title)
    { name := file_name, mime := mime, data := data } now

/-- Modelled from the spec: `add_broadcast` (§4.5) applies
`broadcast_step` independently to every listed student and aggregates
`(succeeded, failed)` counts; one student's failure does not abort the
others. -/
def add_broadcast (db : DB) (students : List String) (title file_name mime : String) (data : List Nat) (now : Nat) : (Nat × Nat) × DB :=
  match students with
  | [] => ((0, 0), db)
  | u :: rest =>
    let one := broadcast_step db u title file_name mime data now
    let tail := add_broadcast one.2 rest title file_name mime data now
    match one.1 with
    | none => ((tail.1.1 + 1, tail.1.2), tail.2)
    | some _ => ((tail.1.1, tail.1.2 + 1), tail.2)

/-- The row a successful broadcast step inserts. -/
def broadcastRow (db : DB) (u title file_name mime : String) (data : List Nat) (now : Nat) : NoteRow :=
  { id := db.nextNoteId, student_username := u,
    title := if pyStrip title == "" then file_name else pyStrip title,
    file_name := file_name,
    mime_type := if mime == "" then "application/octet-stream" else mime,
    data := data, uploaded_at := now }

/-- The seeded administrator account of `DEFAULT_ADMIN`. -/
def DEFAULT_ADMIN : AdminRow :=
  { username := "admin", password := "admin123", full_name := "Administrator" }

/-- The three seeded student records of `DEFAULT_STUDENTS`. -/
def DEFAULT_STUDENTS : List StudentRow :=
  [ { username := "sara", password := "sara2024", full_name := "Sara Hernandez",
      email := "sara.hernandez@example.com", program := "Computer Science",
      phone := "(555) 010-1111", notes := "Robotics club president." },
    { username := "dylan", password := "dylan2024", full_name := "Dylan Chen",
      email := "dylan.chen@example.com", program := "Mechanical Engineering",
      phone := "(555) 010-2222", notes := "Co-op placement at Horizon Industries." },
    { username := "lina", password := "lina2024", full_name := "Lina Patel",
      email := "lina.patel@example.com", program := "Business Administration",
      phone := "(555) 010-3333", notes := "Dean's list for two consecutive years." } ]

/-- `init_db`: idempotent seeding — `INSERT OR IGNORE` of the default
admin, then each default student whose username is not already
present.  (Table creation is implicit in the `DB` state.) -/
def init_db (db : DB) : DB :=
  let db1 :=
    if db.admins.any (fun a => a.username == DEFAULT_ADMIN.username) then db
    else { db with admins := db.admins ++ [DEFAULT_ADMIN] }
  DEFAULT_STUDENTS.foldl
    (fun acc s =>
      if acc.students.any (fun row => row.username == s.username) then acc
      else { acc with students := acc.students ++ [s] })
    db1

/-! ## Concrete stores used by witnesses -/

/-- The store right after `init_db` on a fresh database. -/
def seededDB : DB := init_db emptyDB

/-- The seeded record of student `sara`. -/
def saraRow : StudentRow :=
  { username := "sara", password := "sara2024", full_name := "Sara Hernandez",
    email := "sara.hernandez@example.com", program := "Computer Science",
    phone := "(555) 010-1111", notes := "Robotics club president." }

/-- A store in which an admin row and a student row coincidentally share
the same username/password pair. -/
def coincDB : DB :=
  { emptyDB with
    admins := [{ username := "joe", password := "pw", full_name := "Joe Admin" }],
    students := [{ username := "joe", password := "pw", full_name := "Joe Student",
                   email := "j@e", program := "Arts", phone := "", notes := "" }] }

/-- Five attendance entries for student `s`: three present, two absent. -/
def dbFive : DB :=
  { emptyDB with
    students := [{ username := "s", password := "p", full_name := "S", email := "e",
                   program := "g", phone := "", notes := "" }],
    attendance :=
      [ { id := 1, student_username := "s", attendance_date := "2025-01-01", status := "present", marked_at := 1 },
        { id := 2, student_username := "s", attendance_date := "2025-01-02", status := "present", marked_at := 2 },
        { id := 3, student_username := "s", attendance_date := "2025-01-03", status := "present", marked_at := 3 },
        { id := 4, student_username := "s", attendance_date := "2025-01-04", status := "absent", marked_at := 4 },
        { id := 5, student_username := "s", attendance_date := "2025-01-05", status := "absent", marked_at := 5 } ],
    nextAttId := 6 }

/-- February 2025 scenario: one present entry on the 14th, nothing else. -/
def dbFeb : DB :=
  { emptyDB with
    students := [{ username := "s", password := "p", full_name := "S", email := "e",
                   program := "g", phone := "", notes := "" }],
    attendance :=
      [ { id := 1, student_username := "s", attendance_date := "2025-02-14", status := "present", marked_at := 1 } ],
    nextAttId := 2 }

/-- Two existing students `a` and `c`; `b` is missing, simulating the
concurrently deleted broadcast target. -/
def dbBroadcast : DB :=
  { emptyDB with
    students :=
      [ { username := "a", password := "p", full_name := "A", email := "e", program := "g", phone := "", notes := "" },
        { username := "c", password := "p", full_name := "C", email := "e", program := "g", phone := "", notes := "" } ] }

/-- Seeded store after `sara` marks attendance and receives a document. -/
def dbC1a : DB := (mark_attendance seededDB "sara" "2025-01-10" "present" 100).2

/-- ... after an additional document upload for `sara`. -/
def dbC1b : DB :=
  (add_student_note dbC1a "sara" "Review" { name := "rev.pdf", mime := "application/pdf", data := [1, 2, 3] } 101).2

/-- ... after `delete_student "sara"`. -/
def dbC1c : DB := (delete_student dbC1b "sara").2

/-- ... after re-creating a student `sara`. -/
def dbC1d : DB := (create dbC1c { username := "sara", password := "new", full_name := "", email := "", program := "", phone := "" }).2

/-! ## Helper lemmas -/

theorem filter_filter_not {α : Type} (p : α → Bool) (l : List α) :
    (l.filter (fun a => !(p a))).filter p = [] := by
  induction l with
  | nil => rfl
  | cons a l ih =>
    cases h : p a <;> simp [List.filter_cons, h, ih]

theorem mem_insertBy {α : Type} (r : α → α → Bool) (a x : α) (l : List α) :
    x ∈ insertBy r a l ↔ x = a ∨ x ∈ l := by
  induction l with
  | nil => simp [insertBy]
  | cons b l ih =>
    by_cases h : r a b = true
    · simp [insertBy, h]
    · simp only [insertBy, if_neg h, List.mem_cons, ih]
      tauto

theorem mem_sortedBy {α : Type} (r : α → α → Bool) (x : α) (l : List α) :
    x ∈ sortedBy r l ↔ x ∈ l := by
  induction l with
  | nil => simp [sortedBy]
  | cons a l ih => simp [sortedBy, mem_insertBy, ih]

theorem countP_insertBy {α : Type} (r : α → α → Bool) (p : α → Bool) (a : α) (l : List α) :
    (insertBy r a l).countP p = (if p a then 1 else 0) + l.countP p := by
  induction l with
  | nil => cases h : p a <;> simp [insertBy, List.countP_cons, h]
  | cons b l ih =>
    by_cases h : r a b = true
    · cases ha : p a <;> simp [insertBy, h, List.countP_cons, ha] <;> omega
    · simp only [insertBy, if_neg h, List.countP_cons, ih]
      cases ha : p a <;> cases hb : p b <;> simp [ha, hb] <;> omega

theorem countP_sortedBy {α : Type} (r : α → α → Bool) (p : α → Bool) (l : List α) :
    (sortedBy r l).countP p = l.countP p := by
  induction l with
  | nil => rfl
  | cons a l ih =>
    simp only [sortedBy, countP_insertBy, ih, List.countP_cons]
    cases h : p a <;> simp [h] <;> omega

theorem length_sortedBy {α : Type} (r : α → α → Bool) (l : List α) :
    (sortedBy r l).length = l.length := by
  have h1 := countP_sortedBy r (fun _ => true) l
  simpa [List.countP_true] using h1

theorem find?_append_none {α : Type} (p : α → Bool) {l₁ : List α} (l₂ : List α)
    (h : l₁.find? p = none) : (l₁ ++ l₂).find? p = l₂.find? p := by
  simp [List.find?_append, h]

/-! ## Claim theorems -/

/-- C2: `mark_attendance` is an upsert.  For every store, username,
date and status, the call succeeds and afterwards exactly one
attendance row exists for the `(username, date)` key; its status is the
status just passed and its `marked_at` is the time of this call.  In
particular, marking `present` and then `absent` for the same date
leaves a single row with status `absent` and the second call's
timestamp — never two rows. -/
theorem mark_attendance_upsert (db : DB) (username d s s2 : String) (now now2 : Nat) :
    (mark_attendance db username d s now).1 = none ∧
    (mark_attendance db username d s now).2.attendance.filter (attKey username d) =
      [{ id := db.nextAttId, student_username := username, attendance_date := d,
         status := s, marked_at := now }] ∧
    (mark_attendance (mark_attendance db username d s now).2 username d s2 now2).2.attendance.filter (attKey username d) =
      [{ id := db.nextAttId + 1, student_username := username, attendance_date := d,
         status := s2, marked_at := now2 }] := by
  have key : ∀ (db' : DB) (s' : String) (n' : Nat),
      (mark_attendance db' username d s' n').2.attendance.filter (attKey username d) =
        [{ id := db'.nextAttId, student_username := username, attendance_date := d,
           status := s', marked_at := n' }] := by
    intro db' s' n'
    have hrow : attKey username d
        { id := db'.nextAttId, student_username := username, attendance_date := d,
          status := s', marked_at := n' } = true := by
      simp [attKey]
    simp [mark_attendance, List.filter_append, filter_filter_not, hrow]
  exact ⟨rfl, key db s now, key (mark_attendance db username d s now).2 s2 now2⟩

/-- C4: login resolution tries admin credentials first; a pair matching
an admin row yields an admin session regardless of any student match,
and a pair matching neither leaves a single opaque invalid-credentials
outcome. -/
theorem login_admin_first (db : DB) (username password : String) :
    (∀ n, authenticate_admin db username password = some n →
        render_login db username password = .admin n) ∧
    (authenticate_admin db username password = none →
        authenticate_student db username password = none →
        render_login db username password = .invalid) := by
  constructor
  · intro n h
    simp [render_login, h]
  · intro h1 h2
    simp [render_login, h1, h2]

/-- C4 witness: in `coincDB` the pair `joe`/`pw` matches both an admin
row and a student row and resolves as admin; a pair matching neither
yields the invalid outcome. -/
theorem login_admin_first_witness :
    authenticate_student coincDB "joe" "pw" ≠ none ∧
    render_login coincDB "joe" "pw" = .admin "Joe Admin" ∧
    render_login coincDB "nobody" "x" = .invalid :=
  ⟨by decide,
   (login_admin_first coincDB "joe" "pw").1 "Joe Admin" (by decide),
   (login_admin_first coincDB "nobody" "x").2 (by decide) (by decide)⟩

/-- C10: deleting a student by an unknown username, or a note by an
unknown id, returns success (no error value) and leaves the store
entirely unchanged — there is no `NotFound` failure. -/
theorem delete_missing_is_silent_success (db : DB) (username : String) (note_id : Nat)
    (hu : fetch_student db username = none) (hn : ∀ n ∈ db.notes, n.id ≠ note_id) :
    delete_student db username = (none, db) ∧
    delete_student_note db note_id = (none, db) := by
  constructor
  · have hall : ∀ row ∈ db.students, (!(row.username == username)) = true := by
      intro row hrow
      have := List.find?_eq_none.mp hu row hrow
      simpa using this
    have hfilter : db.students.filter (fun row => !(row.username == username)) = db.students :=
      List.filter_eq_self.mpr hall
    simp [delete_student, hfilter]
  · have hall : ∀ n ∈ db.notes, (!(n.id == note_id)) = true := by
      intro n hmem
      simpa using hn n hmem
    have hfilter : db.notes.filter (fun n => !(n.id == note_id)) = db.notes :=
      List.filter_eq_self.mpr hall
    simp [delete_student_note, hfilter]

/-- C10 witness: on the seeded store, deleting unknown student `ghost`
and unknown note id 99 both succeed and change nothing. -/
theorem delete_missing_is_silent_success_witness :
    delete_student seededDB "ghost" = (none, seededDB) ∧
    delete_student_note seededDB 99 = (none, seededDB) :=
  delete_missing_is_silent_success seededDB "ghost" 99 (by decide) (by decide)

/-- C6: `update_student` is a sparse patch.  It succeeds, rewrites only
the rows whose username matches (leaving every other student's record
in place), touches no other table, and every field of the matched row
that the patch does not supply keeps its stored value; an empty patch
returns success with the store untouched. -/
theorem update_student_sparse_patch (db : DB) (username : String) (p : StudentPatch)
    (r : StudentRow) (hr : fetch_student db username = some r) :
    (update_student db username p).1 = none ∧
    (p.isEmpty = true → (update_student db username p).2 = db) ∧
    (update_student db username p).2.students =
      db.students.map (fun row => if row.username == username then applyPatch p row else row) ∧
    (update_student db username p).2.admins = db.admins ∧
    (update_student db username p).2.notes = db.notes ∧
    (update_student db username p).2.attendance = db.attendance ∧
    (∀ row ∈ db.students, row.username ≠ username →
        row ∈ (update_student db username p).2.students) ∧
    (applyPatch p r).username = r.username ∧
    (p.password = none → (applyPatch p r).password = r.password) ∧
    (p.full_name = none → (applyPatch p r).full_name = r.full_name) ∧
    (p.email = none → (applyPatch p r).email = r.email) ∧
    (p.program = none → (applyPatch p r).program = r.program) ∧
    (p.phone = none → (applyPatch p r).phone = r.phone) ∧
    (p.notes = none → (applyPatch p r).notes = r.notes) := by
  have happly_id : p.isEmpty = true → ∀ row : StudentRow, applyPatch p row = row := by
    intro hemp row
    obtain ⟨pw, fn, em, pr, ph, no⟩ := p
    simp only [StudentPatch.isEmpty, Bool.and_eq_true, Option.isNone_iff_eq_none] at hemp
    obtain ⟨⟨⟨⟨⟨h1, h2⟩, h3⟩, h4⟩, h5⟩, h6⟩ := hemp
    subst h1; subst h2; subst h3; subst h4; subst h5; subst h6
    simp [applyPatch]
  have hstudents : (update_student db username p).2.students =
      db.students.map (fun row => if row.username == username then applyPatch p row else row) := by
    by_cases hemp : p.isEmpty = true
    · have hfun : (fun row : StudentRow => if row.username == username then applyPatch p row else row) = id := by
        funext row
        by_cases h : (row.username == username) = true <;> simp [h, happly_id hemp]
      rw [hfun, List.map_id]
      simp [update_student, hemp]
    · simp [update_student, hemp]
  refine ⟨?_, ?_, hstudents, ?_, ?_, ?_, ?_, ?_, ?_, ?_, ?_, ?_, ?_, ?_⟩
  · by_cases hemp : p.isEmpty = true <;> simp [update_student, hemp]
  · intro hemp
    simp [update_student, hemp]
  · by_cases hemp : p.isEmpty = true <;> simp [update_student, hemp]
  · by_cases hemp : p.isEmpty = true <;> simp [update_student, hemp]
  · by_cases hemp : p.isEmpty = true <;> simp [update_student, hemp]
  · intro row hrow hne
    rw [hstudents]
    refine List.mem_map.mpr ⟨row, hrow, ?_⟩
    simp [hne]
  · simp [applyPatch]
  · intro h; simp [applyPatch, h]
  · intro h; simp [applyPatch, h]
  · intro h; simp [applyPatch, h]
  · intro h; simp [applyPatch, h]
  · intro h; simp [applyPatch, h]
  · intro h; simp [applyPatch, h]

/-- C6 witness: patching only `sara`'s email on the seeded store
succeeds, leaves the other tables and `dylan`'s row untouched, keeps
`sara`'s unpatched phone, and the empty patch is a pure no-op. -/
theorem update_student_sparse_patch_witness :
    (update_student seededDB "sara" { email := some "sara@new.example" }).1 = none ∧
    (update_student seededDB "sara" { email := some "sara@new.example" }).2.attendance = seededDB.attendance ∧
    (applyPatch { email := some "sara@new.example" } saraRow).phone = saraRow.phone ∧
    (update_student seededDB "sara" {}).2 = seededDB := by
  have h := update_student_sparse_patch seededDB "sara" { email := some "sara@new.example" }
    saraRow (by decide)
  have h0 := update_student_sparse_patch seededDB "sara" {} saraRow (by decide)
  exact ⟨h.1, h.2.2.2.2.2.1, h.2.2.2.2.2.2.2.2.2.2.2.2.1 rfl, h0.2.1 rfl⟩

/-- C7: the document-upload flow fails with the empty-payload error
exactly when the uploaded bytes are empty, in which case the store is
untouched; on a non-empty payload it succeeds and appends one
attachment whose stored title falls back to the file name when the
given title is blank (and whose MIME type falls back to
`application/octet-stream`). -/
theorem upload_note_empty_payload_iff (db : DB) (username note_title : String)
    (f : UploadedFile) (now : Nat) :
    ((upload_note db username note_title f now).1 = some "Uploaded file is empty." ↔ f.data = []) ∧
    (f.data = [] → (upload_note db username note_title f now).2 = db) ∧
    (f.data ≠ [] → (upload_note db username note_title f now).1 = none ∧
      (upload_note db username note_title f now).2.notes = db.notes ++
        [{ id := db.nextNoteId, student_username := username,
           title := if pyStrip note_title == "" then f.name else pyStrip note_title,
           file_name := f.name,
           mime_type := if f.mime == "" then "application/octet-stream" else f.mime,
           data := f.data, uploaded_at := now }]) := by
  by_cases h : f.data = []
  · have hemp : f.data.isEmpty = true := by simp [h]
    refine ⟨?_, ?_, ?_⟩
    · simp [upload_note, add_student_note, hemp, h]
    · intro _
      simp [upload_note, add_student_note, hemp]
    · intro hne
      exact absurd h hne
  · have hemp : f.data.isEmpty = false := by simp [h]
    refine ⟨?_, ?_, ?_⟩
    · simp [upload_note, add_student_note, hemp, h]
    · intro habs
      exact absurd habs h
    · intro _
      simp [upload_note, add_student_note, hemp]

/-- C7 witness: an empty upload is rejected with the store unchanged; a
non-empty upload with a whitespace title stores the file name as
title. -/
theorem upload_note_empty_payload_iff_witness :
    (upload_note seededDB "sara" "T" { name := "a.txt", mime := "", data := [] } 7).1 =
      some "Uploaded file is empty." ∧
    (upload_note seededDB "sara" "T" { name := "a.txt", mime := "", data := [] } 7).2 = seededDB ∧
    (upload_note seededDB "sara" "  " { name := "a.txt", mime := "text/plain", data := [3] } 7).2.notes =
      seededDB.notes ++
        [{ id := seededDB.nextNoteId, student_username := "sara", title := "a.txt",
           file_name := "a.txt", mime_type := "text/plain", data := [3], uploaded_at := 7 }] := by
  have h1 := upload_note_empty_payload_iff seededDB "sara" "T"
    { name := "a.txt", mime := "", data := [] } 7
  have h2 := upload_note_empty_payload_iff seededDB "sara" "  "
    { name := "a.txt", mime := "text/plain", data := [3] } 7
  refine ⟨h1.1.mpr rfl, h1.2.1 rfl, ?_⟩
  have h3 := (h2.2.2 (by decide)).2
  rw [h3]
  decide

/-- C5: the creation flow fails with a validation error — before any
store access, leaving the store untouched — when username or password
is empty, fails with the duplicate-key outcome when the username
already exists, and otherwise succeeds; a subsequent `fetch_student`
returns exactly the stored row, with unset optional fields materialized
to the defaults `Unnamed Student` / `Not provided` / `Undeclared` /
`""` / `""`. -/
theorem create_validates_then_defaults (db : DB) (f : NewStudentForm) :
    (f.username = "" ∨ f.password = "" → create db f = (.validationError, db)) ∧
    (f.username ≠ "" → f.password ≠ "" → (fetch_student db f.username).isSome →
        create db f = (.duplicateKey, db)) ∧
    (f.username ≠ "" → f.password ≠ "" → fetch_student db f.username = none →
        (create db f).1 = .ok ∧
        fetch_student (create db f).2 f.username = some
          { username := f.username, password := f.password,
            full_name := if f.full_name = "" then "Unnamed Student" else f.full_name,
            email := if f.email = "" then "Not provided" else f.email,
            program := if f.program = "" then "Undeclared" else f.program,
            phone := f.phone, notes := "" }) := by
  refine ⟨?_, ?_, ?_⟩
  · intro h
    rcases h with h | h <;> simp [create, h]
  · intro h1 h2 h3
    simp [create, h1, h2, h3]
  · intro h1 h2 h3
    have hany : db.students.any (fun row => row.username == f.username) = false := by
      rw [List.any_eq_false]
      intro row hrow
      have := List.find?_eq_none.mp h3 row hrow
      simpa using this
    have hcreate : create db f =
        (.ok, { db with students := db.students ++
          [{ username := f.username, password := f.password,
             full_name := if f.full_name = "" then "Unnamed Student" else f.full_name,
             email := if f.email = "" then "Not provided" else f.email,
             program := if f.program = "" then "Undeclared" else f.program,
             phone := f.phone, notes := "" }] }) := by
      simp [create, h1, h2, h3, add_student, hany]
    refine ⟨by rw [hcreate], ?_⟩
    rw [hcreate]
    have h3' : db.students.find? (fun row => row.username == f.username) = none := h3
    simp only [fetch_student]
    rw [find?_append_none _ _ h3']
    simp [List.find?_cons]

/-- C5 witness: empty username is rejected with the store untouched;
re-creating `sara` hits the duplicate outcome; creating `jdoe` with all
optional form fields left blank succeeds, and `fetch_student` then
returns the row with all documented defaults. -/
theorem create_validates_then_defaults_witness :
    create seededDB { username := "", password := "x", full_name := "", email := "", program := "", phone := "" } =
      (.validationError, seededDB) ∧
    create seededDB { username := "sara", password := "x", full_name := "", email := "", program := "", phone := "" } =
      (.duplicateKey, seededDB) ∧
    (create seededDB { username := "jdoe", password := "pw", full_name := "", email := "", program := "", phone := "" }).1 = .ok ∧
    fetch_student (create seededDB { username := "jdoe", password := "pw", full_name := "", email := "", program := "", phone := "" }).2 "jdoe" =
      some { username := "jdoe", password := "pw", full_name := "Unnamed Student",
             email := "Not provided", program := "Undeclared", phone := "", notes := "" } := by
  have h1 := (create_validates_then_defaults seededDB
    { username := "", password := "x", full_name := "", email := "", program := "", phone := "" }).1
    (Or.inl rfl)
  have h2 := (create_validates_then_defaults seededDB
    { username := "sara", password := "x", full_name := "", email := "", program := "", phone := "" }).2.1
    (by decide) (by decide) (by decide)
  have h3 := (create_validates_then_defaults seededDB
    { username := "jdoe", password := "pw", full_name := "", email := "", program := "", phone := "" }).2.2
    (by decide) (by decide) (by decide)
  exact ⟨h1, h2, h3.1, h3.2⟩

/-- C8: `summary` returns the number of the student's attendance rows
as `total`, the counts of `present` and `absent` rows, and a percentage
equal to `present_count / total * 100`, defined as `0` when `total = 0`
so no division by zero occurs. -/
theorem summary_counts_and_percentage (db : DB) (username : String) :
    (summary db username).total =
      db.attendance.countP (fun a => a.student_username == username) ∧
    (summary db username).present_count =
      db.attendance.countP (fun a => a.student_username == username && a.status == "present") ∧
    (summary db username).absent_count =
      db.attendance.countP (fun a => a.student_username == username && a.status == "absent") ∧
    ((summary db username).total = 0 → (summary db username).present_percentage = 0) ∧
    ((summary db username).total ≠ 0 →
        (summary db username).present_percentage =
          ((summary db username).present_count : ℚ) / ((summary db username).total : ℚ) * 100) := by
  have hcomm : ∀ p q : AttRow → Bool,
      (fun a => p a && q a) = (fun a => q a && p a) := by
    intro p q
    funext a
    exact Bool.and_comm (p a) (q a)
  have htotal : (summary db username).total =
      db.attendance.countP (fun a => a.student_username == username) := by
    simp only [summary, fetch_attendance]
    rw [length_sortedBy, ← List.countP_eq_length_filter]
  have hpresent : (summary db username).present_count =
      db.attendance.countP (fun a => a.student_username == username && a.status == "present") := by
    simp only [summary, fetch_attendance]
    rw [countP_sortedBy, List.countP_filter, hcomm]
  have habsent : (summary db username).absent_count =
      db.attendance.countP (fun a => a.student_username == username && a.status == "absent") := by
    simp only [summary, fetch_attendance]
    rw [countP_sortedBy, List.countP_filter, hcomm]
  refine ⟨htotal, hpresent, habsent, ?_, ?_⟩
  · intro h
    have hzero : (fetch_attendance db username).length = 0 := h
    simp [summary, hzero]
  · intro h
    have hpos : (fetch_attendance db username).length > 0 := Nat.pos_of_ne_zero h
    simp [summary, hpos]

/-- C8 witness: for the store with three present and two absent entries
for student `s`, `summary` returns total 5, present 3, absent 2 and
percentage exactly 60, and the percentage equals the stated quotient. -/
theorem summary_counts_and_percentage_witness :
    (summary dbFive "s").total = 5 ∧
    (summary dbFive "s").present_count = 3 ∧
    (summary dbFive "s").absent_count = 2 ∧
    (summary dbFive "s").present_percentage = 60 ∧
    (summary dbFive "s").present_percentage =
      ((summary dbFive "s").present_count : ℚ) / ((summary dbFive "s").total : ℚ) * 100 := by
  have h := (summary_counts_and_percentage dbFive "s").2.2.2.2 (by decide)
  refine ⟨by decide, by decide, by decide, ?_, h⟩
  rw [h, show (summary dbFive "s").present_count = 3 from by decide,
    show (summary dbFive "s").total = 5 from by decide]
  norm_num

theorem fetch_student_congr {db1 db2 : DB} (h : db1.students = db2.students) (u : String) :
    fetch_student db1 u = fetch_student db2 u := by
  simp [fetch_student, h]

theorem add_student_note_students (db : DB) (u t : String) (f : UploadedFile) (now : Nat) :
    (add_student_note db u t f now).2.students = db.students := by
  by_cases h : f.data.isEmpty = true <;> simp [add_student_note, h]

theorem broadcast_step_students (db : DB) (u title fn mm : String) (data : List Nat) (now : Nat) :
    (broadcast_step db u title fn mm data now).2.students = db.students := by
  by_cases hu : (fetch_student db u).isNone = true
  · unfold broadcast_step
    rw [if_pos hu]
  · unfold broadcast_step
    rw [if_neg hu]
    exact add_student_note_students db u _ _ now

theorem broadcast_step_none_iff (db : DB) (u title fn mm : String) (data : List Nat) (now : Nat)
    (hdata : data ≠ []) :
    (broadcast_step db u title fn mm data now).1 = none ↔ (fetch_student db u).isSome = true := by
  have hde : data.isEmpty = false := by
    cases data
    · exact absurd rfl hdata
    · rfl
  rcases h : fetch_student db u with _ | r
  · unfold broadcast_step
    rw [h]
    simp
  · unfold broadcast_step
    rw [h]
    simp [add_student_note, hde]

theorem broadcast_step_fail (db : DB) (u title fn mm : String) (data : List Nat) (now : Nat)
    (hnone : fetch_student db u = none) :
    broadcast_step db u title fn mm data now = (some "missing student record", db) := by
  unfold broadcast_step
  rw [hnone]
  rfl

theorem broadcast_step_success_notes (db : DB) (u title fn mm : String) (data : List Nat) (now : Nat)
    (hdata : data ≠ []) (hsome : (fetch_student db u).isSome = true) :
    (broadcast_step db u title fn mm data now).2.notes =
      db.notes ++ [broadcastRow db u title fn mm data now] := by
  have hde : data.isEmpty = false := by
    cases data
    · exact absurd rfl hdata
    · rfl
  rcases h : fetch_student db u with _ | r
  · rw [h] at hsome
    simp at hsome
  · unfold broadcast_step
    rw [h]
    simp [add_student_note, hde, broadcastRow]

theorem broadcast_step_notes_prefix (db : DB) (u title fn mm : String) (data : List Nat) (now : Nat) :
    ∃ l, (broadcast_step db u title fn mm data now).2.notes = db.notes ++ l := by
  rcases h : fetch_student db u with _ | r
  · rw [broadcast_step_fail db u title fn mm data now h]
    exact ⟨[], by simp⟩
  · by_cases hd : data.isEmpty = true
    · unfold broadcast_step
      rw [h]
      simp only [Option.isNone_some, Bool.false_eq_true, if_neg, not_false_eq_true]
      unfold add_student_note
      rw [if_pos hd]
      exact ⟨[], by simp⟩
    · refine ⟨[broadcastRow db u title fn mm data now], ?_⟩
      apply broadcast_step_success_notes
      · intro habs
        rw [habs] at hd
        exact hd rfl
      · rw [h]
        rfl

theorem add_broadcast_students (title fn mm : String) (data : List Nat) (now : Nat) :
    ∀ (ss : List String) (db : DB),
      (add_broadcast db ss title fn mm data now).2.students = db.students
  | [], _ => rfl
  | u :: rest, db => by
    rcases h : broadcast_step db u title fn mm data now with ⟨res, dbI⟩
    have hIs : dbI.students = db.students := by
      have hx := broadcast_step_students db u title fn mm data now
      rw [h] at hx
      exact hx
    have ih := add_broadcast_students title fn mm data now rest dbI
    simp only [add_broadcast, h]
    cases res <;> simpa [ih] using hIs

theorem add_broadcast_notes_prefix (title fn mm : String) (data : List Nat) (now : Nat) :
    ∀ (ss : List String) (db : DB),
      ∃ l, (add_broadcast db ss title fn mm data now).2.notes = db.notes ++ l
  | [], db => ⟨[], by simp [add_broadcast]⟩
  | u :: rest, db => by
    rcases h : broadcast_step db u title fn mm data now with ⟨res, dbI⟩
    have hpre : ∃ l0, dbI.notes = db.notes ++ l0 := by
      have hx := broadcast_step_notes_prefix db u title fn mm data now
      rw [h] at hx
      exact hx
    obtain ⟨l0, hl0⟩ := hpre
    obtain ⟨l1, hl1⟩ := add_broadcast_notes_prefix title fn mm data now rest dbI
    refine ⟨l0 ++ l1, ?_⟩
    simp only [add_broadcast, h]
    cases res <;> simp [hl1, hl0]

theorem add_broadcast_counts (title fn mm : String) (data : List Nat) (now : Nat)
    (hdata : data ≠ []) :
    ∀ (ss : List String) (db : DB),
      (add_broadcast db ss title fn mm data now).1.1 =
        (ss.filter (fun u => (fetch_student db u).isSome)).length ∧
      (add_broadcast db ss title fn mm data now).1.2 =
        (ss.filter (fun u => (fetch_student db u).isNone)).length
  | [], _ => by simp [add_broadcast]
  | u :: rest, db => by
    rcases h : broadcast_step db u title fn mm data now with ⟨res, dbI⟩
    have hIs : dbI.students = db.students := by
      have hx := broadcast_step_students db u title fn mm data now
      rw [h] at hx
      exact hx
    obtain ⟨ih1, ih2⟩ := add_broadcast_counts title fn mm data now hdata rest dbI
    have hfilter1 : rest.filter (fun v => (fetch_student dbI v).isSome) =
        rest.filter (fun v => (fetch_student db v).isSome) := by
      apply List.filter_congr
      intro v _
      rw [fetch_student_congr hIs v]
    have hfilter2 : rest.filter (fun v => (fetch_student dbI v).isNone) =
        rest.filter (fun v => (fetch_student db v).isNone) := by
      apply List.filter_congr
      intro v _
      rw [fetch_student_congr hIs v]
    rw [hfilter1] at ih1
    rw [hfilter2] at ih2
    have hiff := broadcast_step_none_iff db u title fn mm data now hdata
    rw [h] at hiff
    cases res with
    | none =>
      have hus : (fetch_student db u).isSome = true := hiff.mp rfl
      have hun : (fetch_student db u).isNone = false := by
        rcases hh : fetch_student db u with _ | r <;> rw [hh] at hus <;> simp_all
      simp only [add_broadcast, h, List.filter_cons, hus, hun, if_pos, Bool.false_eq_true,
        if_neg, not_false_eq_true, List.length_cons]
      exact ⟨by rw [ih1], by rw [ih2]⟩
    | some msg =>
      have hus : (fetch_student db u).isSome = false := by
        rcases hh : fetch_student db u with _ | r
        · rfl
        · exfalso
          have h1 : (fetch_student db u).isSome = true := by
            rw [hh]
            rfl
          have h2 := hiff.mpr h1
          simp at h2
      have hun : (fetch_student db u).isNone = true := by
        rcases hh : fetch_student db u with _ | r <;> rw [hh] at hus <;> simp_all
      simp only [add_broadcast, h, List.filter_cons, hus, hun, if_pos, Bool.false_eq_true,
        if_neg, not_false_eq_true, List.length_cons]
      exact ⟨by rw [ih1], by rw [ih2]⟩

theorem add_broadcast_queryable (title fn mm : String) (data : List Nat) (now : Nat)
    (hdata : data ≠ []) :
    ∀ (ss : List String) (db : DB) (u : String), u ∈ ss → (fetch_student db u).isSome = true →
      ∃ n ∈ (add_broadcast db ss title fn mm data now).2.notes,
        n.student_username = u ∧
        n.title = (if pyStrip title == "" then fn else pyStrip title) ∧
        n.file_name = fn ∧ n.data = data
  | [], _, u, hmem, _ => absurd hmem (List.not_mem_nil u)
  | u0 :: rest, db, u, hmem, hsome => by
    rcases h : broadcast_step db u0 title fn mm data now with ⟨res, dbI⟩
    have hIs : dbI.students = db.students := by
      have hx := broadcast_step_students db u0 title fn mm data now
      rw [h] at hx
      exact hx
    rcases List.mem_cons.mp hmem with rfl | hmem'
    · have hnotes : dbI.notes = db.notes ++ [broadcastRow db u title fn mm data now] := by
        have hx := broadcast_step_success_notes db u title fn mm data now hdata hsome
        rw [h] at hx
        exact hx
      obtain ⟨l1, hl1⟩ := add_broadcast_notes_prefix title fn mm data now rest dbI
      refine ⟨broadcastRow db u title fn mm data now, ?_, rfl, rfl, rfl, rfl⟩
      have hmem2 : broadcastRow db u title fn mm data now ∈ dbI.notes := by
        rw [hnotes]
        simp
      have hfinal : (add_broadcast db (u :: rest) title fn mm data now).2.notes =
          dbI.notes ++ l1 := by
        simp only [add_broadcast, h]
        cases res <;> simpa using hl1
      rw [hfinal]
      exact List.mem_append_left l1 hmem2
    · have hsome' : (fetch_student dbI u).isSome = true := by
        rw [fetch_student_congr hIs u]
        exact hsome
      obtain ⟨n, hn, hprops⟩ :=
        add_broadcast_queryable title fn mm data now hdata rest dbI u hmem' hsome'
      refine ⟨n, ?_, hprops⟩
      simp only [add_broadcast, h]
      cases res <;> exact hn

theorem chunk7_flatten {α : Type} : ∀ l : List α, (chunk7 l).flatten = l
  | [] => by simp [chunk7]
  | a :: l => by
    rw [chunk7]
    simp only [List.flatten_cons]
    rw [chunk7_flatten ((a :: l).drop 7)]
    exact List.take_append_drop 7 (a :: l)
  termination_by l => l.length
  decreasing_by
    simp [List.length_drop]
    omega

theorem chunk7_week_length {α : Type} : ∀ l : List α, l.length % 7 = 0 → ∀ w ∈ chunk7 l, w.length = 7
  | [], _, w, hw => by simp [chunk7] at hw
  | a :: l, h, w, hw => by
    rw [chunk7] at hw
    have hlen : (l.length + 1) % 7 = 0 := by simpa using h
    rcases List.mem_cons.mp hw with rfl | hw'
    · have h7 : 7 ≤ (a :: l).length := by
        simp only [List.length_cons]
        omega
      rw [List.length_take, Nat.min_eq_left h7]
    · refine chunk7_week_length ((a :: l).drop 7) ?_ w hw'
      simp only [List.length_drop, List.length_cons]
      omega
  termination_by l => l.length
  decreasing_by
    simp [List.length_drop]
    omega

theorem paddedDays_length_mod (y m : Nat) : (paddedDays y m).length % 7 = 0 := by
  simp only [paddedDays, List.length_append, List.length_replicate, List.length_map,
    List.length_range]
  omega

theorem mem_paddedDays_bounds (y m d : Nat) (hd : d ∈ paddedDays y m) :
    d = 0 ∨ (1 ≤ d ∧ d ≤ daysInMonth y m) := by
  simp only [paddedDays, List.mem_append, List.mem_replicate, List.mem_map,
    List.mem_range] at hd
  rcases hd with h | (⟨i, hi, rfl⟩ | h)
  · exact Or.inl h.2
  · right
    omega
  · exact Or.inl h.2

theorem mem_paddedDays_of_day (y m d : Nat) (h1 : 1 ≤ d) (h2 : d ≤ daysInMonth y m) :
    d ∈ paddedDays y m := by
  simp only [paddedDays, List.mem_append, List.mem_replicate, List.mem_map, List.mem_range]
  right
  left
  exact ⟨d - 1, by omega, by omega⟩

theorem paddedDays_getElem (y m d : Nat) (h1 : 1 ≤ d) (h2 : d ≤ daysInMonth y m) :
    (paddedDays y m)[firstWeekday y m + (d - 1)]? = some d := by
  simp only [paddedDays]
  rw [List.getElem?_append_right (by simp only [List.length_replicate]; omega)]
  simp only [List.length_replicate, Nat.add_sub_cancel_left]
  rw [List.getElem?_append_left (by simp only [List.length_map, List.length_range]; omega)]
  rw [List.getElem?_map, List.getElem?_range (by omega)]
  have hd : d - 1 + 1 = d := by omega
  simp [hd]

theorem firstWeekday_alignment (y m d : Nat) (h1 : 1 ≤ d) :
    (firstWeekday y m + (d - 1)) % 7 = weekdayOf y m d := by
  unfold firstWeekday weekdayOf
  omega

theorem attendanceDict_eq_some (db : DB) (u ds : String)
    (huniq : ∀ a ∈ db.attendance, ∀ b ∈ db.attendance,
      a.student_username = b.student_username → a.attendance_date = b.attendance_date → a = b)
    (a : AttRow) (ha : a ∈ db.attendance) (hau : a.student_username = u)
    (had : a.attendance_date = ds) :
    attendanceDict (fetch_attendance db u) ds = some a.status := by
  unfold attendanceDict
  rcases hfind : (fetch_attendance db u).reverse.find? (fun r => r.attendance_date == ds)
    with _ | x
  · exfalso
    have hmem : a ∈ (fetch_attendance db u).reverse := by
      rw [List.mem_reverse, fetch_attendance, mem_sortedBy]
      exact List.mem_filter.mpr ⟨ha, by simp [hau]⟩
    have := List.find?_eq_none.mp hfind a hmem
    simp [had] at this
  · have hx_mem : x ∈ (fetch_attendance db u).reverse := List.mem_of_find?_eq_some hfind
    have hx_pred := List.find?_some hfind
    rw [List.mem_reverse, fetch_attendance, mem_sortedBy] at hx_mem
    obtain ⟨hx_att, hx_u⟩ := List.mem_filter.mp hx_mem
    have hx_u2 : x.student_username = u := by simpa using hx_u
    have hx_d : x.attendance_date = ds := by simpa using hx_pred
    have hxa : x = a := huniq x hx_att a ha (by rw [hx_u2, hau]) (by rw [hx_d, had])
    rw [hfind, hxa]
    rfl

theorem attendanceDict_eq_none (db : DB) (u ds : String)
    (h : ∀ a ∈ db.attendance, a.student_username = u → a.attendance_date ≠ ds) :
    attendanceDict (fetch_attendance db u) ds = none := by
  unfold attendanceDict
  have hfind : (fetch_attendance db u).reverse.find? (fun r => r.attendance_date == ds) = none := by
    rw [List.find?_eq_none]
    intro x hx
    rw [List.mem_reverse, fetch_attendance, mem_sortedBy] at hx
    obtain ⟨hx_att, hx_u⟩ := List.mem_filter.mp hx
    have := h x hx_att (by simpa using hx_u)
    simpa using this
  rw [hfind]
  rfl

theorem mem_calendar_of_day (db : DB) (u : String) (y m d : Nat)
    (h1 : 1 ≤ d) (h2 : d ≤ daysInMonth y m) :
    (d, cellOf (attendanceDict (fetch_attendance db u) (dateStr y m d))) ∈
      render_attendance_calendar db u y m := by
  unfold render_attendance_calendar
  rw [monthdayscalendar, chunk7_flatten]
  apply List.mem_filterMap.mpr
  refine ⟨d, mem_paddedDays_of_day y m d h1 h2, ?_⟩
  have hne : d ≠ 0 := by omega
  simp [hne]

/-- C3: the broadcast document upload (modelled from the spec, which the
source does not implement) applies the single-student add independently
to every listed student: it reports as `succeeded` exactly the students
whose record exists and as `failed` exactly the missing ones — one
student's failure aborts nobody else — it never touches the `students`
table, and every succeeding student can afterwards query an attachment
carrying the broadcast title, file name and payload. -/
theorem add_broadcast_partial_failure (db : DB) (ss : List String)
    (title fn mm : String) (data : List Nat) (now : Nat) (hdata : data ≠ []) :
    (add_broadcast db ss title fn mm data now).1.1 =
      (ss.filter (fun u => (fetch_student db u).isSome)).length ∧
    (add_broadcast db ss title fn mm data now).1.2 =
      (ss.filter (fun u => (fetch_student db u).isNone)).length ∧
    (add_broadcast db ss title fn mm data now).2.students = db.students ∧
    (∀ u ∈ ss, (fetch_student db u).isSome = true →
      ∃ n ∈ fetch_student_notes (add_broadcast db ss title fn mm data now).2 u,
        n.title = (if pyStrip title == "" then fn else pyStrip title) ∧
        n.file_name = fn ∧ n.data = data) := by
  obtain ⟨h1, h2⟩ := add_broadcast_counts title fn mm data now hdata ss db
  refine ⟨h1, h2, add_broadcast_students title fn mm data now ss db, ?_⟩
  intro u hmem hsome
  obtain ⟨n, hn, hu, hrest⟩ :=
    add_broadcast_queryable title fn mm data now hdata ss db u hmem hsome
  refine ⟨n, ?_, hrest⟩
  rw [fetch_student_notes, mem_sortedBy]
  exact List.mem_filter.mpr ⟨hn, by simp [hu]⟩

/-- C3 witness: broadcasting one non-empty document to `a`, `b`, `c`
where `b`'s record is missing reports succeeded 2, failed 1, and the
two successful attachments remain queryable for `a` and `c`. -/
theorem add_broadcast_partial_failure_witness :
    (add_broadcast dbBroadcast ["a", "b", "c"] "T" "f.txt" "text/plain" [7] 5).1 = (2, 1) ∧
    fetch_student_notes (add_broadcast dbBroadcast ["a", "b", "c"] "T" "f.txt" "text/plain" [7] 5).2 "a" ≠ [] ∧
    fetch_student_notes (add_broadcast dbBroadcast ["a", "b", "c"] "T" "f.txt" "text/plain" [7] 5).2 "c" ≠ [] := by
  have h := add_broadcast_partial_failure dbBroadcast ["a", "b", "c"] "T" "f.txt" "text/plain" [7] 5 (by decide)
  obtain ⟨na, hna, _⟩ := h.2.2.2 "a" (by decide) (by decide)
  obtain ⟨nc, hnc, _⟩ := h.2.2.2 "c" (by decide) (by decide)
  refine ⟨?_, List.ne_nil_of_mem hna, List.ne_nil_of_mem hnc⟩
  have ha := h.1
  have hb := h.2.1
  rw [show (["a", "b", "c"].filter (fun u => (fetch_student dbBroadcast u).isSome)).length = 2 from by decide] at ha
  rw [show (["a", "b", "c"].filter (fun u => (fetch_student dbBroadcast u).isNone)).length = 1 from by decide] at hb
  rw [Prod.ext_iff]
  exact ⟨ha, hb⟩

theorem calendar_day_bounds (db : DB) (u : String) (y m d : Nat) (c : DayCell)
    (hmem : (d, c) ∈ render_attendance_calendar db u y m) :
    1 ≤ d ∧ d ≤ daysInMonth y m := by
  unfold render_attendance_calendar at hmem
  rw [monthdayscalendar, chunk7_flatten] at hmem
  obtain ⟨e, he, heq⟩ := List.mem_filterMap.mp hmem
  by_cases h0 : (e == 0) = true
  · simp [h0] at heq
  · simp only [h0, Bool.false_eq_true, if_neg, not_false_eq_true, Option.some.injEq,
      Prod.mk.injEq] at heq
    obtain ⟨rfl, _⟩ := heq
    rcases mem_paddedDays_bounds y m e he with rfl | hb
    · simp at h0
    · exact hb

/-- C9: the month view of `render_attendance_calendar` represents
exactly the days 1..n of the given calendar month: a day with a stored
attendance entry on the corresponding ISO date is shown with that
entry's classified status, every other day of the month is classified
`unmarked` — a third value distinct from present and absent — and no
day number outside the month appears; the underlying grid enumerates
whole weeks Monday-first, day `d` sitting at flat position
`firstWeekday + d - 1`, whose column index is the Monday-based weekday
of that date. -/
theorem month_view_spec (db : DB) (u : String) (y m : Nat)
    (huniq : ∀ a ∈ db.attendance, ∀ b ∈ db.attendance,
      a.student_username = b.student_username → a.attendance_date = b.attendance_date → a = b) :
    (∀ d c, (d, c) ∈ render_attendance_calendar db u y m → 1 ≤ d ∧ d ≤ daysInMonth y m) ∧
    (∀ d a, 1 ≤ d → d ≤ daysInMonth y m → a ∈ db.attendance → a.student_username = u →
      a.attendance_date = dateStr y m d →
      (d, cellOf (some a.status)) ∈ render_attendance_calendar db u y m) ∧
    (∀ d, 1 ≤ d → d ≤ daysInMonth y m →
      (∀ a ∈ db.attendance, a.student_username = u → a.attendance_date ≠ dateStr y m d) →
      (d, DayCell.unmarked) ∈ render_attendance_calendar db u y m) ∧
    DayCell.unmarked ≠ DayCell.present ∧ DayCell.unmarked ≠ DayCell.absent ∧
    (monthdayscalendar y m).flatten = paddedDays y m ∧
    (∀ w ∈ monthdayscalendar y m, w.length = 7) ∧
    (∀ d, 1 ≤ d → d ≤ daysInMonth y m →
      (paddedDays y m)[firstWeekday y m + (d - 1)]? = some d ∧
      (firstWeekday y m + (d - 1)) % 7 = weekdayOf y m d) := by
  refine ⟨fun d c hmem => calendar_day_bounds db u y m d c hmem, ?_, ?_, by decide, by decide,
    chunk7_flatten (paddedDays y m),
    chunk7_week_length (paddedDays y m) (paddedDays_length_mod y m),
    fun d h1 h2 => ⟨paddedDays_getElem y m d h1 h2, firstWeekday_alignment y m d h1⟩⟩
  · intro d a h1 h2 ha hau had
    have hdict := attendanceDict_eq_some db u (dateStr y m d) huniq a ha hau had
    have := mem_calendar_of_day db u y m d h1 h2
    rw [hdict] at this
    exact this
  · intro d h1 h2 hnone
    have hdict := attendanceDict_eq_none db u (dateStr y m d) hnone
    have := mem_calendar_of_day db u y m d h1 h2
    rw [hdict] at this
    exact this

/-- C9 witness: February 2025 with a single present entry on the 14th —
day 14 is shown present, day 1 unmarked, no cell for day 30 or 31
exists, the grid flattens to the padded Monday-first day list, and day
14 sits at the column of its weekday (Friday, index 4). -/
theorem month_view_spec_witness :
    (14, DayCell.present) ∈ render_attendance_calendar dbFeb "s" 2025 2 ∧
    (1, DayCell.unmarked) ∈ render_attendance_calendar dbFeb "s" 2025 2 ∧
    (∀ c, (30, c) ∉ render_attendance_calendar dbFeb "s" 2025 2) ∧
    (∀ c, (31, c) ∉ render_attendance_calendar dbFeb "s" 2025 2) ∧
    (paddedDays 2025 2)[firstWeekday 2025 2 + 13]? = some 14 ∧
    (firstWeekday 2025 2 + 13) % 7 = 4 := by
  have h := month_view_spec dbFeb "s" 2025 2 (by decide)
  have h14 := h.2.1 14
    { id := 1, student_username := "s", attendance_date := "2025-02-14", status := "present", marked_at := 1 }
    (by decide) (by decide) (by decide) (by decide) (by decide)
  have h1 := h.2.2.1 1 (by decide) (by decide) (by decide)
  have hpos := (h.2.2.2.2.2.2.2 14 (by decide) (by decide)).1
  have hcol := (h.2.2.2.2.2.2.2 14 (by decide) (by decide)).2
  refine ⟨h14, h1, ?_, ?_, hpos, by rw [hcol]; decide⟩
  · intro c hc
    have := (h.1 30 c hc).2
    simp [daysInMonth, isLeap] at this
  · intro c hc
    have := (h.1 31 c hc).2
    simp [daysInMonth, isLeap] at this

/-- C1 (code bug evidence): on the executed code, deleting `sara` after
she has one attendance row and one document removes only the
`students` row.  Because the sqlite connection never enables
`PRAGMA foreign_keys`, the declared `ON DELETE CASCADE` is inert: her
attendance history and document list are still non-empty after the
delete, and re-creating a student `sara` resurfaces the residual
attendance history, contradicting the claimed cascade. -/
theorem delete_student_does_not_cascade :
    fetch_student dbC1c "sara" = none ∧
    fetch_attendance dbC1c "sara" =
      [{ id := 1, student_username := "sara", attendance_date := "2025-01-10",
         status := "present", marked_at := 100 }] ∧
    (fetch_student_notes dbC1c "sara").length = 1 ∧
    (create dbC1c
      { username := "sara", password := "new", full_name := "", email := "",
        program := "", phone := "" }).1 = .ok ∧
    fetch_attendance dbC1d "sara" ≠ [] := by
  decide

end StuApp
